import Mathlib

/-!
Verification of the structural document model and batch-mutation engine of a
document-editing server (TypeScript sources under `src/lib/toolset/google/gdocs`
and the table operation manager).  Each TypeScript function relevant to the
checked properties is shallowly embedded as an executable Lean definition:
JavaScript `undefined`/absent fields become `Option.none`, JS objects become
structures with `Option` fields, and thrown exceptions become `Except.error`.
-/

namespace GDocs

/-- A JavaScript cell value as it can appear in caller-supplied table data:
a string, `null`, `undefined`, or any other (non-string) value.  A non-string
value carries its `typeof` name and its `JSON.stringify` rendering, which the
validator interpolates into its error message. -/
inductive JsCell where
  | str (s : String)
  | nullv
  | undef
  | other (typeName : String) (repr : String)
deriving DecidableEq, Repr

/-- Whether a `JsCell` is a string (passes the `typeof cell === 'string'` check). -/
def JsCell.isStr : JsCell → Bool
  | .str _ => true
  | _ => false

/-- JS rendering of the offending value in the null/undefined cell message. -/
def JsCell.nullishName : JsCell → String
  | .nullv => "null"
  | .undef => "undefined"
  | _ => ""

/-- Comma-join a list of naturals the way a JS array interpolates into a
template string (`${[0,2]}` renders as `0,2`). -/
def joinNats (l : List Nat) : String :=
  String.intercalate "," (l.map toString)

/-- Indices of empty rows, as computed by
`tableData.map((row,i) => ...).filter(row.length === 0)`. -/
def emptyRowIndices (td : List (List JsCell)) : List Nat :=
  (td.enum.filter (fun p => p.2.length == 0)).map (·.1)

/-- First non-string cell in a row, with its column index. -/
def firstBadCellInRow (row : List JsCell) : Option (Nat × JsCell) :=
  row.enum.find? (fun p => !p.2.isStr)

/-- First non-string cell of the whole matrix in row-major order
(row index, column index, cell), mirroring the nested for-loops of
`ValidationManager.validateTableData`. -/
def firstBadCell (td : List (List JsCell)) : Option (Nat × Nat × JsCell) :=
  td.enum.findSome? (fun p =>
    (firstBadCellInRow p.2).map (fun q => (p.1, q.1, q.2)))

/-- Error message for a non-string cell, mirroring the two message shapes of
`validateTableData` (null/undefined vs. other non-string values). -/
def badCellMsg (rowIdx colIdx : Nat) (c : JsCell) : String :=
  match c with
  | .nullv =>
      "Cell (" ++ toString rowIdx ++ "," ++ toString colIdx ++ ") is null. All cells must be strings, use empty string \x27\x27 for empty cells."
  | .undef =>
      "Cell (" ++ toString rowIdx ++ "," ++ toString colIdx ++ ") is undefined. All cells must be strings, use empty string \x27\x27 for empty cells."
  | .other typeName reprStr =>
      "Cell (" ++ toString rowIdx ++ "," ++ toString colIdx ++ ") is " ++ typeName ++ ", not string. All cells must be strings. Value: " ++ reprStr
  | .str _ => ""

/-- `ValidationManager.validateTableData`.  The TS input is typed
`string[][]`; rows are JS arrays (the `Array.isArray(row)` check can only
succeed in this typed embedding and is therefore not represented), while
individual cells may be arbitrary JS values, modelled by `JsCell`.
The distinct column counts (`[...new Set(colCounts)]`) are modelled by
`List.dedup`: only their number is compared.  Returns the
`(isValid, message)` pair of the source. -/
def validateTableData (td : List (List JsCell)) : Bool × String :=
  if td.length == 0 then
    (false, "Table data cannot be empty. Required format: [[\x27col1\x27, \x27col2\x27], [\x27row1col1\x27, \x27row1col2\x27]]")
  else
    let emptyRows := emptyRowIndices td
    if emptyRows.length > 0 then
      (false, "Rows cannot be empty. Empty rows found at indices: " ++ joinNats emptyRows)
    else
      let colCounts := td.map List.length
      let uniqueCounts := colCounts.dedup
      if uniqueCounts.length > 1 then
        (false, "All rows must have the same number of columns. Found column counts: " ++ joinNats colCounts)
      else
        let rows := td.length
        let cols := colCounts.headD 0
        if rows > 1000 then
          (false, "Too many rows (" ++ toString rows ++ "). Maximum allowed: 1000")
        else if cols > 20 then
          (false, "Too many columns (" ++ toString cols ++ "). Maximum allowed: 20")
        else
          match firstBadCell td with
          | some (rowIdx, colIdx, c) => (false, badCellMsg rowIdx colIdx c)
          | none => (true, "Valid table data: " ++ toString rows ++ "×" ++ toString cols ++ " table format")

/-- `m` starts with `p` (stated over the character lists so that it composes
with list append lemmas). -/
def strStartsWith (m p : String) : Bool :=
  p.toList.isPrefixOf m.toList

/-- The invalid-table messages each name the constraint they report: every
invalid result's message starts with one of these five phrases (the sixth,
the empty-data message, cannot occur for a non-empty matrix). -/
def tableMsgNamesConstraint (m : String) : Bool :=
  strStartsWith m "Rows cannot be empty" ||
  strStartsWith m "All rows must have the same number of columns" ||
  strStartsWith m "Too many rows" ||
  strStartsWith m "Too many columns" ||
  strStartsWith m "Cell ("

/-! ## docs_helpers.ts and BatchOperationManager -/

/-- A caller-supplied batch operation (`BatchOperation` in the source is a
record with a `type` discriminator and arbitrary further properties).  Each
property the validator or the request builder ever reads is modelled as an
`Option` field; an absent JS property is `none`.  The snake_case and the
camelCase spellings are distinct JS properties and therefore distinct fields. -/
structure BatchOperation where
  type : String := ""
  index : Option Int := none
  text : Option String := none
  start_index : Option Int := none
  end_index : Option Int := none
  startIndex : Option Int := none
  endIndex : Option Int := none
  find_text : Option String := none
  replace_text : Option String := none
  findText : Option String := none
  replaceText : Option String := none
  matchCase : Option Bool := none
  rows : Option Int := none
  columns : Option Int := none
  bold : Option Bool := none
  italic : Option Bool := none
  underline : Option Bool := none
  fontSize : Option Int := none
  fontFamily : Option String := none
deriving DecidableEq, Repr

/-- The `textStyle` object assembled by `buildTextStyle`: present keys are
`some`. `fontSize` is stored as `{magnitude, unit: PT}`; only the magnitude is
modelled.  `weightedFontFamily` holds the `fontFamily` string. -/
structure TextStyle where
  bold : Option Bool := none
  italic : Option Bool := none
  underline : Option Bool := none
  fontSizeMagnitude : Option Int := none
  weightedFontFamily : Option String := none
deriving DecidableEq, Repr

/-- A low-level mutation record (Google Docs batchUpdate request) as built by
the helpers in `docs_helpers.ts` and by the header/footer and table managers.
Fields fed from possibly-absent JS properties are `Option`s; `none` is the
JSON `undefined` that would be serialized. -/
inductive DocRequest where
  | insertText (index : Option Int) (text : Option String)
  | deleteContentRange (startIndex endIndex : Option Int)
  | updateTextStyle (startIndex endIndex : Option Int) (textStyle : TextStyle) (fields : String)
  | insertTable (index rows columns : Option Int)
  | insertPageBreak (index : Option Int)
  | replaceAllText (findText : Option String) (replaceText : Option String) (matchCase : Bool)
deriving DecidableEq, Repr

/-- `buildTextStyle(options)`: returns the `[textStyle, fields]` pair.  The
first three options and `fontSize` are added when not `undefined`; `fontFamily`
is added under JS truthiness (`if (options.fontFamily)`), so an empty string
counts as absent.  The pushed field name for `fontFamily` is
`weightedFontFamily`. -/
def buildTextStyle (bold italic underline : Option Bool) (fontSize : Option Int)
    (fontFamily : Option String) : TextStyle × List String :=
  let familyTruthy := match fontFamily with
    | some s => s != ""
    | none => false
  let ts : TextStyle :=
    { bold := bold
      italic := italic
      underline := underline
      fontSizeMagnitude := fontSize
      weightedFontFamily := if familyTruthy then fontFamily else none }
  let fields :=
    (if bold.isSome then ["bold"] else []) ++
    (if italic.isSome then ["italic"] else []) ++
    (if underline.isSome then ["underline"] else []) ++
    (if fontSize.isSome then ["fontSize"] else []) ++
    (if familyTruthy then ["weightedFontFamily"] else [])
  (ts, fields)

/-- `createInsertTextRequest(index, text)`. -/
def createInsertTextRequest (index : Option Int) (text : Option String) : DocRequest :=
  .insertText index text

/-- `createDeleteRangeRequest(startIndex, endIndex)`. -/
def createDeleteRangeRequest (startIndex endIndex : Option Int) : DocRequest :=
  .deleteContentRange startIndex endIndex

/-- `createFormatTextRequest(startIndex, endIndex, options)`: `null` (here
`none`) when no style field survives `buildTextStyle`; otherwise an
`updateTextStyle` request whose `fields` mask is the comma-join of the
collected field names. -/
def createFormatTextRequest (startIndex endIndex : Option Int)
    (bold italic underline : Option Bool) (fontSize : Option Int)
    (fontFamily : Option String) : Option DocRequest :=
  let (textStyle, fields) := buildTextStyle bold italic underline fontSize fontFamily
  if fields.length == 0 then none
  else some (.updateTextStyle startIndex endIndex textStyle (String.intercalate "," fields))

/-- `createFindReplaceRequest(findText, replaceText, matchCase = false)`. -/
def createFindReplaceRequest (findText replaceText : Option String) (matchCase : Bool) : DocRequest :=
  .replaceAllText findText replaceText matchCase

/-- `createInsertTableRequest(index, rows, columns)`. -/
def createInsertTableRequest (index rows columns : Option Int) : DocRequest :=
  .insertTable index rows columns

/-- `createInsertPageBreakRequest(index)`. -/
def createInsertPageBreakRequest (index : Option Int) : DocRequest :=
  .insertPageBreak index

/-- The required-field schedule of `validateOperation` (snake_case names,
exactly as in `docs_helpers.ts`). -/
def requiredFieldsSchedule : List (String × List String) :=
  [("insert_text", ["index", "text"]),
   ("delete_text", ["start_index", "end_index"]),
   ("replace_text", ["start_index", "end_index", "text"]),
   ("format_text", ["start_index", "end_index"]),
   ("insert_table", ["index", "rows", "columns"]),
   ("insert_page_break", ["index"]),
   ("find_replace", ["find_text", "replace_text"])]

/-- The JS `field in operation` membership test, for each field name the
required-field schedule can mention. -/
def hasField (op : BatchOperation) : String → Bool
  | "index" => op.index.isSome
  | "text" => op.text.isSome
  | "start_index" => op.start_index.isSome
  | "end_index" => op.end_index.isSome
  | "rows" => op.rows.isSome
  | "columns" => op.columns.isSome
  | "find_text" => op.find_text.isSome
  | "replace_text" => op.replace_text.isSome
  | _ => false

/-- `validateOperation(operation)` from `docs_helpers.ts`: `(isValid, message)`. -/
def validateOperation (op : BatchOperation) : Bool × String :=
  if op.type == "" then (false, "Missing \x27type\x27 field")
  else
    match requiredFieldsSchedule.find? (fun p => p.1 == op.type) with
    | none => (false, "Unsupported operation type: " ++ op.type)
    | some (_, reqs) =>
      match reqs.find? (fun f => !hasField op f) with
      | some f => (false, "Missing required field: " ++ f)
      | none => (true, "")

/-- JS template rendering of a possibly-undefined number (`${op.index}`). -/
def jsShowInt : Option Int → String
  | some n => toString n
  | none => "undefined"

/-- JS template rendering of a possibly-undefined string. -/
def jsShowStr : Option String → String
  | some s => s
  | none => "undefined"

/-- JS template rendering of a possibly-undefined boolean. -/
def jsShowBool : Option Bool → String
  | some true => "true"
  | some false => "false"
  | none => "undefined"

/-- The human-readable `formatChanges` list built in the `format_text` branch
of `buildOperationRequest`: one entry per parameter that is not `undefined`
(this branch, unlike `buildTextStyle`, tests `!== undefined` even for
`fontFamily`). -/
def formatChanges (op : BatchOperation) : List String :=
  (if op.bold.isSome then ["bold: " ++ jsShowBool op.bold] else []) ++
  (if op.italic.isSome then ["italic: " ++ jsShowBool op.italic] else []) ++
  (if op.underline.isSome then ["underline: " ++ jsShowBool op.underline] else []) ++
  (if op.fontSize.isSome then ["font size: " ++ jsShowInt op.fontSize ++ "pt"] else []) ++
  (if op.fontFamily.isSome then ["font family: " ++ jsShowStr op.fontFamily] else [])

/-- `BatchOperationManager.buildOperationRequest(op, opType)`: either an error
(a thrown `Error`'s message) or the emitted request list (a single request is
a one-element list; `replace_text` yields two) together with the description
string.  In the `replace_text` branch the source evaluates `op.text.length`,
which throws a `TypeError` when `text` is absent. -/
def buildOperationRequest (op : BatchOperation) (opType : String) :
    Except String (List DocRequest × String) :=
  if opType == "insert_text" then
    .ok ([createInsertTextRequest op.index op.text], "insert text at " ++ jsShowInt op.index)
  else if opType == "delete_text" then
    .ok ([createDeleteRangeRequest op.startIndex op.endIndex],
         "delete text " ++ jsShowInt op.startIndex ++ "-" ++ jsShowInt op.endIndex)
  else if opType == "replace_text" then
    match op.text with
    | none => .error "Cannot read properties of undefined (reading \x27length\x27)"
    | some t =>
      let truncatedText := if t.length > 20 then t.take 20 ++ "..." else t
      .ok ([createDeleteRangeRequest op.startIndex op.endIndex,
            createInsertTextRequest op.startIndex (some t)],
           "replace text " ++ jsShowInt op.startIndex ++ "-" ++ jsShowInt op.endIndex ++
             " with \x27" ++ truncatedText ++ "\x27")
  else if opType == "format_text" then
    match createFormatTextRequest op.startIndex op.endIndex
        op.bold op.italic op.underline op.fontSize op.fontFamily with
    | none => .error "No formatting options provided"
    | some formatRequest =>
      .ok ([formatRequest],
           "format text " ++ jsShowInt op.startIndex ++ "-" ++ jsShowInt op.endIndex ++
             " (" ++ String.intercalate ", " (formatChanges op) ++ ")")
  else if opType == "insert_table" then
    .ok ([createInsertTableRequest op.index op.rows op.columns],
         "insert " ++ jsShowInt op.rows ++ "x" ++ jsShowInt op.columns ++
           " table at " ++ jsShowInt op.index)
  else if opType == "insert_page_break" then
    .ok ([createInsertPageBreakRequest op.index], "insert page break at " ++ jsShowInt op.index)
  else if opType == "find_replace" then
    .ok ([createFindReplaceRequest op.findText op.replaceText (op.matchCase.getD false)],
         "find/replace \x27" ++ jsShowStr op.findText ++ "\x27 → \x27" ++
           jsShowStr op.replaceText ++ "\x27")
  else
    .error ("Unsupported operation type \x27" ++ opType ++
      "\x27. Supported: insert_text, delete_text, replace_text, format_text, insert_table, insert_page_break, find_replace")

/-- The loop body of `validateAndBuildRequests`, with the running 0-based
loop counter `i` made explicit.  A validation failure throws
`Operation ${i+1}: ${errorMsg}`; a build failure throws
`Operation ${i+1} (${opType}) failed: ${message}`.  On success the request
list (flattened) and description list are accumulated in order. -/
def validateAndBuildRequestsGo (i : Nat) :
    List BatchOperation → Except String (List DocRequest × List String)
  | [] => .ok ([], [])
  | op :: rest =>
    let v := validateOperation op
    if !v.1 then
      .error ("Operation " ++ toString (i + 1) ++ ": " ++ v.2)
    else
      match buildOperationRequest op op.type with
      | .error e =>
        .error ("Operation " ++ toString (i + 1) ++ " (" ++ op.type ++ ") failed: " ++ e)
      | .ok (reqs, desc) =>
        match validateAndBuildRequestsGo (i + 1) rest with
        | .error e => .error e
        | .ok (rs, ds) => .ok (reqs ++ rs, desc :: ds)

/-- `BatchOperationManager.validateAndBuildRequests(operations)`. -/
def validateAndBuildRequests (operations : List BatchOperation) :
    Except String (List DocRequest × List String) :=
  validateAndBuildRequestsGo 0 operations

/-- `BatchOperationManager.buildOperationSummary(operationDescriptions)`. -/
def buildOperationSummary (operationDescriptions : List String) : String :=
  if operationDescriptions.length == 0 then "no operations"
  else
    let summary := String.intercalate ", " (operationDescriptions.take 3)
    if operationDescriptions.length > 3 then
      let remaining := operationDescriptions.length - 3
      summary ++ " and " ++ toString remaining ++ " more operation" ++
        (if remaining > 1 then "s" else "")
    else summary

/-- The `metadata` record of a `BatchResult`. -/
structure BatchMetadata where
  operationsCount : Nat
  requestsCount : Nat
  repliesCount : Nat
  operationSummary : List String
deriving DecidableEq, Repr

/-- `BatchResult`: the `{success, message, metadata}` value returned by
`executeBatchOperations`. -/
structure BatchResult where
  success : Bool
  message : String
  metadata : BatchMetadata
deriving DecidableEq, Repr

/-- `BatchOperationManager.executeBatchOperations(documentId, operations)`.
The external document service (`executeBatchRequests`, a POST of the request
list) is modelled as accepting the batch and replying positionally, one reply
per record — its own failure modes are outside the claims checked here.  The
second component is the list of mutation records actually handed to the
service: `[]` exactly when no `batchUpdate` call is issued.  A thrown `Error`
stringifies as `Error: ${message}` inside the catch-all message. -/
def executeBatchOperations (_documentId : String) (operations : List BatchOperation) :
    BatchResult × List DocRequest :=
  if operations.length == 0 then
    ({ success := false
       message := "No operations provided. Please provide at least one operation."
       metadata := ⟨0, 0, 0, []⟩ }, [])
  else
    match validateAndBuildRequests operations with
    | .error e =>
      ({ success := false
         message := "Batch operation failed: Error: " ++ e
         metadata := ⟨operations.length, 0, 0, []⟩ }, [])
    | .ok (requests, operationDescriptions) =>
      if requests.length == 0 then
        ({ success := false
           message := "No valid requests could be built from operations"
           metadata := ⟨operations.length, 0, 0, []⟩ }, [])
      else
        ({ success := true
           message := "Successfully executed " ++ toString operations.length ++
             " operations (" ++ buildOperationSummary operationDescriptions ++ ")"
           metadata := ⟨operations.length, requests.length, requests.length,
                        operationDescriptions.take 5⟩ }, requests)

/-- One entry of `getSupportedOperations().supportedOperations`. -/
structure SupportedOperation where
  required : List String
  optional : List String := []
  description : String
deriving DecidableEq, Repr

/-- `BatchOperationManager.getSupportedOperations()`: the documented
required/optional parameter names (camelCase) per operation type. -/
def getSupportedOperations : List (String × SupportedOperation) :=
  [("insert_text",
    { required := ["index", "text"], description := "Insert text at specified index" }),
   ("delete_text",
    { required := ["startIndex", "endIndex"], description := "Delete text in specified range" }),
   ("replace_text",
    { required := ["startIndex", "endIndex", "text"],
      description := "Replace text in range with new text" }),
   ("format_text",
    { required := ["startIndex", "endIndex"],
      optional := ["bold", "italic", "underline", "fontSize", "fontFamily"],
      description := "Apply formatting to text range" }),
   ("insert_table",
    { required := ["index", "rows", "columns"], description := "Insert table at specified index" }),
   ("insert_page_break",
    { required := ["index"], description := "Insert page break at specified index" }),
   ("find_replace",
    { required := ["findText", "replaceText"], optional := ["matchCase"],
      description := "Find and replace text throughout document" })]

/-- An operation "fails validation or request-building": the disjunction
`executeBatchOperations` aborts on. -/
def opFails (op : BatchOperation) : Bool :=
  !(validateOperation op).1 || !(buildOperationRequest op op.type).isOk

/-! ## docs_structure.ts: the raw payload model

The raw Google Docs payload is a nested JSON tree.  Every property the
parsing code reads is modelled; an absent property is `none`.  The parser
never recurses into a table nested inside a table cell or a header (it only
reads the `paragraph` member of inner elements), so inner elements are
modelled by the non-recursive `RawInnerElem`.  Style objects
(`paragraphStyle`, `tableStyle`, `sectionStyle`) are opaque pass-throughs
that no checked property reads; they are not modelled. -/

/-- A `textRun` payload: `{content?: string}`. -/
structure RawTextRun where
  content : Option String := none
deriving DecidableEq, Repr

/-- One entry of `paragraph.elements`. -/
structure RawParaElement where
  startIndex : Option Int := none
  endIndex : Option Int := none
  textRun : Option RawTextRun := none
deriving DecidableEq, Repr

/-- A `paragraph` payload: `{elements?: [...]}` (an absent `elements` array
and an empty one are indistinguishable to the code, which always defaults
`|| []`). -/
structure RawParagraph where
  elements : List RawParaElement := []
deriving DecidableEq, Repr

/-- A structural element inside a table cell or a header/footer section.  The
code reads only `startIndex`, `endIndex` and the `paragraph` member of such
elements (a nested table appears as an element whose `paragraph` is absent). -/
structure RawInnerElem where
  startIndex : Option Int := none
  endIndex : Option Int := none
  paragraph : Option RawParagraph := none
deriving DecidableEq, Repr

/-- A `tableCells` entry: `{startIndex?, endIndex?, content?: [...]}`. -/
structure RawTableCell where
  startIndex : Option Int := none
  endIndex : Option Int := none
  content : List RawInnerElem := []
deriving DecidableEq, Repr

/-- A `tableRows` entry. -/
structure RawTableRow where
  tableCells : List RawTableCell := []
deriving DecidableEq, Repr

/-- A `table` payload. -/
structure RawTable where
  tableRows : List RawTableRow := []
deriving DecidableEq, Repr

/-- A top-level body element: exactly one of `paragraph`, `table`,
`sectionBreak`, `tableOfContents` is present in a well-formed payload, but the
code dispatches in that order on whatever combination is present, so all four
members are modelled (`sectionBreak`/`tableOfContents` only for presence). -/
structure RawStructElem where
  startIndex : Option Int := none
  endIndex : Option Int := none
  paragraph : Option RawParagraph := none
  table : Option RawTable := none
  sectionBreak : Bool := false
  tableOfContents : Bool := false
deriving DecidableEq, Repr

/-- A header or footer section payload (`doc.headers[id]` / `doc.footers[id]`):
the `type` tag the HeaderFooterManager matches on, plus its content list. -/
structure RawSection where
  type : Option String := none
  content : List RawInnerElem := []
deriving DecidableEq, Repr

/-- The `body` payload: `{content?: [...]}`. -/
structure RawBody where
  content : List RawStructElem := []
deriving DecidableEq, Repr

/-- The raw document payload handed to the Structure Parser.  `headers` and
`footers` model the JS objects as association lists in `Object.entries`
order. -/
structure RawDoc where
  title : Option String := none
  body : Option RawBody := none
  headers : List (String × RawSection) := []
  footers : List (String × RawSection) := []
deriving DecidableEq, Repr

/-! ## docs_structure.ts: the parsed model -/

/-- A parsed `TableCell`. -/
structure TableCell where
  row : Nat
  column : Nat
  start_index : Int
  end_index : Int
  insertion_index : Int
  content : String
  content_elements : List RawInnerElem
deriving DecidableEq, Repr

/-- A parsed `DocumentElement`: a record with a `type` discriminator and the
type-specific extras (`text` for paragraphs; `rows`/`columns`/`cells` for
tables), absent on the other variants. -/
structure DocumentElement where
  type : String
  start_index : Int
  end_index : Int
  text : Option String := none
  rows : Option Nat := none
  columns : Option Nat := none
  cells : Option (List (List TableCell)) := none
deriving DecidableEq, Repr

/-- A parsed header/footer segment (`parseSegment`). -/
structure ParsedSegment where
  content : List RawInnerElem
  start_index : Int
  end_index : Int
deriving DecidableEq, Repr

/-- The parsed `DocumentStructure`. -/
structure DocumentStructure where
  title : String
  body : List DocumentElement
  tables : List DocumentElement
  headers : List (String × ParsedSegment)
  footers : List (String × ParsedSegment)
  total_length : Int
deriving DecidableEq, Repr

/-- `extractParagraphText(paragraph)`: concatenation of all
`textRun.content || ''` of the paragraph's elements. -/
def extractParagraphText (p : RawParagraph) : String :=
  String.join (p.elements.filterMap (fun e => e.textRun.map (fun tr => tr.content.getD "")))

/-- `extractCellText(cell)`: concatenation of the text of every paragraph
element of the cell's content. -/
def extractCellText (cell : RawTableCell) : String :=
  String.join (cell.content.filterMap (fun e => e.paragraph.map extractParagraphText))

/-- The contribution of one content element to the insertion-index scan of
`parseTableCells`: a paragraph with a non-empty `elements` list whose first
element carries a `startIndex` contributes that `startIndex`; anything else
(no paragraph, empty element list, or first element without `startIndex`)
contributes nothing and the scan moves on (the loop only breaks after
assigning). -/
def qualifyingStart (e : RawInnerElem) : Option Int :=
  e.paragraph.bind (fun p => p.elements.head?.bind (fun fe => fe.startIndex))

/-- The full scan of `parseTableCells`'s inner loop: first hit wins. -/
def cellFirstParaElemStart (content : List RawInnerElem) : Option Int :=
  content.findSome? qualifyingStart

/-- The `insertionIndex` computed per cell: initialized to
`(cell.startIndex || 0) + 1` and overwritten by the first scan hit. -/
def cellInsertionIndex (cell : RawTableCell) : Int :=
  (cellFirstParaElemStart cell.content).getD (cell.startIndex.getD 0 + 1)

/-- `parseTableCells(table)`: the 2D grid of parsed cells. -/
def parseTableCells (table : RawTable) : List (List TableCell) :=
  table.tableRows.enum.map (fun rp =>
    rp.2.tableCells.enum.map (fun cp =>
      let cell := cp.2
      let insertionIndex := cellInsertionIndex cell
      { row := rp.1
        column := cp.1
        start_index := cell.startIndex.getD 0
        end_index := cell.endIndex.getD 0
        insertion_index := insertionIndex
        content := extractCellText cell
        content_elements := cell.content }))

/-- `parseElement(element)`: dispatch on `paragraph`, `table`, `sectionBreak`,
`tableOfContents` in source order; `none` models the `null` return for an
unrecognized element.  Indices default to 0 when absent. -/
def parseElement (element : RawStructElem) : Option DocumentElement :=
  let start_index := element.startIndex.getD 0
  let end_index := element.endIndex.getD 0
  match element.paragraph with
  | some p =>
    some { type := "paragraph", start_index, end_index, text := some (extractParagraphText p) }
  | none =>
    match element.table with
    | some t =>
      some { type := "table", start_index, end_index
             rows := some t.tableRows.length
             columns := some (((t.tableRows.head?).map (fun r => r.tableCells.length)).getD 0)
             cells := some (parseTableCells t) }
    | none =>
      if element.sectionBreak then
        some { type := "section_break", start_index, end_index }
      else if element.tableOfContents then
        some { type := "table_of_contents", start_index, end_index }
      else none

/-- `parseSegment(segmentData)`: keeps the raw content and resolves the
section's bounds from its first/last child. -/
def parseSegment (s : RawSection) : ParsedSegment :=
  { content := s.content
    start_index := ((s.content.head?).bind (fun e => e.startIndex)).getD 0
    end_index := ((s.content.getLast?).bind (fun e => e.endIndex)).getD 0 }

/-- `parseDocumentStructure(docData)` on a non-null payload object. -/
def parseDocumentStructure (docData : RawDoc) : DocumentStructure :=
  let content := (docData.body.map (fun b => b.content)).getD []
  let body := content.filterMap parseElement
  { title := docData.title.getD ""
    body := body
    tables := body.filter (fun e => e.type == "table")
    headers := docData.headers.map (fun p => (p.1, parseSegment p.2))
    footers := docData.footers.map (fun p => (p.1, parseSegment p.2))
    total_length := match body.getLast? with
      | some lastElement => lastElement.end_index
      | none => 0 }

/-- `parseDocumentStructure` as called on an arbitrary JS value: property
access on `null`/`undefined` (modelled by `none`) throws a `TypeError` at the
very first read (`docData.title`); any other value reaches the object path. -/
def parseDocumentStructureJS (docData : Option RawDoc) : Except String DocumentStructure :=
  match docData with
  | none => .error "TypeError: Cannot read properties of null (reading \x27title\x27)"
  | some d => .ok (parseDocumentStructure d)

/-- `getNextParagraphIndex(docData, afterIndex)`: the loop with early return
is the first (in body order) paragraph element with `start_index > afterIndex`;
`Math.max(total_length - 1, 1)` when the loop falls through. -/
def getNextParagraphIndex (docData : RawDoc) (afterIndex : Int) : Int :=
  let struct := parseDocumentStructure docData
  match struct.body.find? (fun e => e.type == "paragraph" && afterIndex < e.start_index) with
  | some element => element.start_index
  | none => max (struct.total_length - 1) 1

/-! ## HeaderFooterManager (validation_manager.ts, second class) -/

/-- JS `String.prototype.includes`. -/
def strContains (s sub : String) : Bool :=
  s.toList.tails.any (fun t => sub.toList.isPrefixOf t)

/-- The `{success, message}` result of the header/footer operations. -/
structure HeaderFooterResult where
  success : Bool
  message : String
deriving DecidableEq, Repr

/-- The `targetPatterns` fallback table of `findTargetSection`. -/
def targetPatterns : String → List String
  | "DEFAULT" => ["default", "kix"]
  | "FIRST_PAGE" => ["first", "firstpage"]
  | "EVEN_PAGE" => ["even", "evenpage"]
  | "FIRST_PAGE_ONLY" => ["first", "firstpage"]
  | _ => []

/-- `HeaderFooterManager.findTargetSection(doc, sectionType, headerFooterType)`:
exact `type` match first, then id-substring patterns (outer loop over
patterns, inner over sections), then the first available section; `none`
models the `[null, null]` return. -/
def findTargetSection (doc : RawDoc) (sectionType : String) (headerFooterType : String) :
    Option (RawSection × String) :=
  let sections := if sectionType == "header" then doc.headers else doc.footers
  match sections.find? (fun p => p.2.type == some headerFooterType) with
  | some (sectionId, sectionData) => some (sectionData, sectionId)
  | none =>
    match (targetPatterns headerFooterType).findSome?
        (fun pattern => sections.find? (fun p => strContains p.1.toLower pattern)) with
    | some (sectionId, sectionData) => some (sectionData, sectionId)
    | none =>
      match sections with
      | (sectionId, sectionData) :: _ => some (sectionData, sectionId)
      | [] => none

/-- `HeaderFooterManager.replaceSectionContent(documentId, section, newContent)`:
returns the success flag together with the list of `batchUpdate` calls issued
(each call carries its request list).  The service call is modelled as
accepted; its own failure modes are outside the checked claims. -/
def replaceSectionContent (sectionData : RawSection) (newContent : String) :
    Bool × List (List DocRequest) :=
  let contentElements := sectionData.content
  if contentElements.length == 0 then (false, [])
  else
    match contentElements.find? (fun e => e.paragraph.isSome) with
    | none => (false, [])
    | some firstPara =>
      let startIndex := firstPara.startIndex.getD 0
      let endIndex := firstPara.endIndex.getD 0
      let requests :=
        (if startIndex < endIndex then
          [DocRequest.deleteContentRange (some startIndex) (some (endIndex - 1))]
         else []) ++
        [DocRequest.insertText (some startIndex) (some newContent)]
      (true, [requests])

/-- `HeaderFooterManager.updateHeaderFooterContent(documentId, sectionType,
content, headerFooterType)`.  The document payload fetched via
`getDocument(documentId)` is the `doc` parameter.  The second component
collects every `batchUpdate` call issued: `[]` means zero mutation calls. -/
def updateHeaderFooterContent (doc : RawDoc) (sectionType : String) (content : String)
    (headerFooterType : String) : HeaderFooterResult × List (List DocRequest) :=
  if !(sectionType == "header" || sectionType == "footer") then
    ({ success := false, message := "section_type must be \x27header\x27 or \x27footer\x27" }, [])
  else if !(["DEFAULT", "FIRST_PAGE_ONLY", "EVEN_PAGE"].contains headerFooterType) then
    ({ success := false
       message := "header_footer_type must be \x27DEFAULT\x27, \x27FIRST_PAGE_ONLY\x27, or \x27EVEN_PAGE\x27" }, [])
  else
    match findTargetSection doc sectionType headerFooterType with
    | none =>
      ({ success := false
         message := "No " ++ sectionType ++ " found in document. Please create a " ++
           sectionType ++ " first in Google Docs." }, [])
    | some (targetSection, _) =>
      let (success, calls) := replaceSectionContent targetSection content
      ({ success := success
         message := if success then
             "Updated " ++ sectionType ++ " content in document"
           else
             "Could not find content structure in " ++ sectionType ++ " to update" }, calls)

/-! ## TableOperationManager (unnamed source file: table_operation_manager) -/

/-- A cell record of the TableOperationManager's own `findTables` (note:
`start_index`/`end_index` are copied without a default and may be
`undefined`; `insertion_index` is always `(startIndex || 0) + 1`). -/
structure TOMCell where
  start_index : Option Int := none
  end_index : Option Int := none
  insertion_index : Int := 1
  content : String := ""
deriving DecidableEq, Repr

/-- A `TableInfo` of the TableOperationManager. -/
structure TOMTableInfo where
  rows : Nat
  columns : Nat
  cells : List (List TOMCell)
  start_index : Option Int := none
  end_index : Option Int := none
deriving DecidableEq, Repr

/-- `TableOperationManager.findTables(docData)` (its own, simpler parser). -/
def tomFindTables (docData : RawDoc) : List TOMTableInfo :=
  let body := (docData.body.map (fun b => b.content)).getD []
  (body.filterMap (fun element =>
    element.table.map (fun table =>
      let rows := table.tableRows
      { rows := rows.length
        columns := ((rows.head?).map (fun r => r.tableCells.length)).getD 0
        cells := rows.map (fun row => row.tableCells.map (fun cell =>
          { start_index := cell.startIndex
            end_index := cell.endIndex
            insertion_index := cell.startIndex.getD 0 + 1
            content := "" }))
        start_index := element.startIndex
        end_index := element.endIndex })))

/-- `TableOperationManager.populateSingleCell(documentId, rowIdx, colIdx,
cellText, applyBold)`.  The fresh document fetched inside the call is the
`fetchedDoc` parameter; `updateThrows` says whether this call's `batchUpdate`
throws (the catch turns it into `false`).  Besides the success flag, the
successfully submitted request list is returned (`[]` when nothing was
accepted). -/
def populateSingleCell (fetchedDoc : RawDoc) (updateThrows : Bool)
    (rowIdx colIdx : Nat) (cellText : String) (applyBold : Bool) :
    Bool × List DocRequest :=
  let tables := tomFindTables fetchedDoc
  match tables.getLast? with
  | none => (false, [])
  | some table =>
    let cells := table.cells
    if rowIdx ≥ cells.length then (false, [])
    else
      let rowCells := cells.getD rowIdx []
      if colIdx ≥ rowCells.length then (false, [])
      else
        let cell := rowCells.getD colIdx {}
        let insertionIndex := cell.insertion_index
        let requests :=
          [DocRequest.insertText (some insertionIndex) (some cellText)] ++
          (if applyBold then
            [DocRequest.updateTextStyle (some insertionIndex)
              (some (insertionIndex + (cellText.length : Int)))
              { bold := some true } "bold"]
           else [])
        if updateThrows then (false, []) else (true, requests)

/-- Per-cell service behaviour during table population: for each `(row, col)`
the document snapshot fetched inside that cell's `populateSingleCell` call,
and whether that call's `batchUpdate` throws. -/
def CellEnv := Nat → Nat → RawDoc × Bool

/-- Inner (column) loop of `populateTableCells`: cells with falsy (empty)
text are skipped; a failed or throwing single-cell write adds nothing but the
loop continues. -/
def populateRowCells (env : CellEnv) (boldHeaders : Bool) (rowIdx : Nat) :
    Nat → List String → Nat
  | _, [] => 0
  | colIdx, cellText :: rest =>
    (if cellText == "" then 0
     else
       let e := env rowIdx colIdx
       if (populateSingleCell e.1 e.2 rowIdx colIdx cellText (boldHeaders && rowIdx == 0)).1
       then 1 else 0) +
    populateRowCells env boldHeaders rowIdx (colIdx + 1) rest

/-- Outer (row) loop of `populateTableCells`. -/
def populateTableCellsGo (env : CellEnv) (boldHeaders : Bool) :
    Nat → List (List String) → Nat
  | _, [] => 0
  | rowIdx, row :: rest =>
    populateRowCells env boldHeaders rowIdx 0 row +
    populateTableCellsGo env boldHeaders (rowIdx + 1) rest

/-- `TableOperationManager.populateTableCells(documentId, tableData,
boldHeaders)`: the returned `populationCount`. -/
def populateTableCells (env : CellEnv) (tableData : List (List String))
    (boldHeaders : Bool) : Nat :=
  populateTableCellsGo env boldHeaders 0 tableData

/-- The metadata record of a `TableCreationResult`. -/
structure TableMetadata where
  rows : Nat
  columns : Nat
  populated_cells : Nat
  table_index : Nat
deriving DecidableEq, Repr

/-- `TableCreationResult`. -/
structure TableCreationResult where
  success : Bool
  message : String
  metadata : Option TableMetadata := none
deriving DecidableEq, Repr

/-- `TableOperationManager.createAndPopulateTable(documentId, tableData,
index, boldHeaders)`.  `tableData` is typed `string[][]`, so its cells enter
`validateTableData` as strings.  The `createEmptyTable` batchUpdate is
modelled as accepted; `freshDoc` is the document fetched in step 2 and `env`
the per-cell service behaviour of step 3. -/
def createAndPopulateTable (env : CellEnv) (freshDoc : RawDoc)
    (tableData : List (List String)) (_index : Int) (boldHeaders : Bool) :
    TableCreationResult :=
  let v := validateTableData (tableData.map (fun r => r.map JsCell.str))
  if !v.1 then
    { success := false, message := "Invalid table data: " ++ v.2 }
  else
    let rows := tableData.length
    let cols := (tableData.headD []).length
    let freshTables := tomFindTables freshDoc
    if freshTables.length == 0 then
      { success := false, message := "Could not find table after creation" }
    else
      let populationCount := populateTableCells env tableData boldHeaders
      { success := true
        message := "Successfully created " ++ toString rows ++ "x" ++ toString cols ++
          " table and populated " ++ toString populationCount ++ " cells"
        metadata := some ⟨rows, cols, populationCount, freshTables.length - 1⟩ }

/-- Spec-side list of all cells with non-empty text in row-major order. -/
def nonEmptyCells (tableData : List (List String)) : List (Nat × Nat × String) :=
  tableData.enum.flatMap (fun rp =>
    rp.2.enum.filterMap (fun cp => if cp.2 == "" then none else some (rp.1, cp.1, cp.2)))

/-- Spec-side predicate: the single-cell write for this `(row, col, text)`
triple succeeds under `env`. -/
def cellWriteOk (env : CellEnv) (boldHeaders : Bool) (p : Nat × Nat × String) : Bool :=
  (populateSingleCell (env p.1 p.2.1).1 (env p.1 p.2.1).2 p.1 p.2.1 p.2.2
    (boldHeaders && p.1 == 0)).1

/-- The field mask of the single `updateTextStyle` record a `format_text`
operation builds (`none` when building fails or yields another shape). -/
def formatMask (op : BatchOperation) : Option String :=
  match buildOperationRequest op "format_text" with
  | .ok ([.updateTextStyle _ _ _ fields], _) => some fields
  | _ => none

/-- A `format_text` operation supplying exactly the `bold` style field. -/
def c4op : BatchOperation :=
  { type := "format_text", startIndex := some 0, endIndex := some 3, bold := some true }

/-- A `format_text` operation supplying exactly one style field: `fontFamily`,
as the empty string. -/
def c4opEmptyFamily : BatchOperation :=
  { type := "format_text", startIndex := some 1, endIndex := some 2, fontFamily := some "" }

/-- A `format_text` operation supplying exactly one style field: `fontFamily`,
as a non-empty string. -/
def c4opArial : BatchOperation :=
  { type := "format_text", startIndex := some 1, endIndex := some 2, fontFamily := some "Arial" }

/-- The request list of a build result (`none` on error). -/
def exceptReqs (e : Except String (List DocRequest × String)) : Option (List DocRequest) :=
  match e with
  | .ok p => some p.1
  | .error _ => none

/-- A `replace_text` operation carrying both the snake_case fields required
by validation and the camelCase fields read by the builder. -/
def c2op : BatchOperation :=
  { type := "replace_text", start_index := some 5, end_index := some 9,
    startIndex := some 5, endIndex := some 9, text := some "hello" }

/-- A `delete_text` operation carrying only the snake_case fields demanded by
validation. -/
def c10snake : BatchOperation :=
  { type := "delete_text", start_index := some 2, end_index := some 7 }

/-- A `delete_text` operation carrying only the camelCase fields documented by
`getSupportedOperations`. -/
def c10camel : BatchOperation :=
  { type := "delete_text", startIndex := some 2, endIndex := some 7 }

/-- A 3-operation batch whose second operation validates (snake_case indices
present) but fails request building (`format_text` without any style field). -/
def c1ops : List BatchOperation :=
  [{ type := "insert_text", index := some 1, text := some "Hello" },
   { type := "format_text", start_index := some 1, end_index := some 2 },
   { type := "insert_text", index := some 5, text := some "x" }]

/-- A table cell whose first paragraph has no elements and whose second
paragraph's first element is a text run starting at 42. -/
def c5cellA : RawTableCell :=
  { startIndex := some 10, endIndex := some 20,
    content :=
      [{ paragraph := some { elements := [] } },
       { paragraph := some { elements :=
           [{ startIndex := some 42, textRun := some { content := some "x" } }] } }] }

/-- A one-cell table around `c5cellA`. -/
def c5tableA : RawTable := { tableRows := [{ tableCells := [c5cellA] }] }

/-- A table cell whose first paragraph starts with a non-text-run element at
index 7, followed by its first text run at index 8. -/
def c5cellB : RawTableCell :=
  { startIndex := some 30, endIndex := some 40,
    content :=
      [{ paragraph := some { elements :=
           [{ startIndex := some 7, textRun := none },
            { startIndex := some 8, textRun := some { content := some "t" } }] } }] }

/-- A one-cell table around `c5cellB`. -/
def c5tableB : RawTable := { tableRows := [{ tableCells := [c5cellB] }] }

/-- A table cell with no content elements at all. -/
def c5cellEmpty : RawTableCell := { startIndex := some 4, endIndex := some 6 }

/-- The start indices of the parsed body's paragraph elements, in body
order. -/
def pStarts (d : RawDoc) : List Int :=
  ((parseDocumentStructure d).body.filter (fun e => e.type == "paragraph")).map
    (fun e => e.start_index)

/-- A document whose two paragraphs appear in body order with *descending*
start indices (10 then 5). -/
def c9unsorted : RawDoc :=
  { body := some { content :=
      [{ startIndex := some 10, endIndex := some 11, paragraph := some { elements := [] } },
       { startIndex := some 5, endIndex := some 6, paragraph := some { elements := [] } }] } }

/-- A document whose two paragraphs appear in ascending start order (2 then 5). -/
def c9sorted : RawDoc :=
  { body := some { content :=
      [{ startIndex := some 2, endIndex := some 3, paragraph := some { elements := [] } },
       { startIndex := some 5, endIndex := some 6, paragraph := some { elements := [] } }] } }

/-- A fetched document payload containing one 2×2 table. -/
def c6doc : RawDoc :=
  { body := some { content :=
      [{ startIndex := some 1, endIndex := some 30,
         table := some { tableRows :=
           [{ tableCells := [{ startIndex := some 2, endIndex := some 10 },
                             { startIndex := some 10, endIndex := some 18 }] },
            { tableCells := [{ startIndex := some 18, endIndex := some 24 },
                             { startIndex := some 24, endIndex := some 29 }] }] } }] } }

/-- Per-cell service behaviour in which every fetch returns `c6doc` and the
write for cell (1,0) throws. -/
def c6env : CellEnv := fun r c => (c6doc, r == 1 && c == 0)

/-- A 2×2 table data matrix with all cells non-empty. -/
def c6data : List (List String) := [["H1", "H2"], ["a", "b"]]

/-! ## Shared helper lemmas -/

theorem strStartsWith_append {q : String} {p : String} (h : strStartsWith q p = true)
    (r : String) : strStartsWith (q ++ r) p = true := by
  unfold strStartsWith at h ⊢
  rw [List.isPrefixOf_iff_prefix] at h ⊢
  have : (q ++ r).toList = q.toList ++ r.toList := by
    simp [String.toList, String.data_append]
  rw [this]
  exact h.trans (List.prefix_append _ _)

theorem strStartsWith_refl (p : String) : strStartsWith p p = true := by
  unfold strStartsWith
  rw [List.isPrefixOf_iff_prefix]

theorem strStartsWith_append_self (p r : String) : strStartsWith (p ++ r) p = true :=
  strStartsWith_append (strStartsWith_refl p) r

theorem tableMsgNamesConstraint_append {q : String} (h : tableMsgNamesConstraint q = true)
    (r : String) : tableMsgNamesConstraint (q ++ r) = true := by
  unfold tableMsgNamesConstraint at h ⊢
  simp only [Bool.or_eq_true] at h ⊢
  rcases h with ((((h | h) | h) | h) | h) <;>
    simp [strStartsWith_append h]

theorem snd_mem_of_mem_enumFrom {α : Type} {p : Nat × α} :
    ∀ {j : Nat} {l : List α}, p ∈ l.enumFrom j → p.2 ∈ l := by
  intro j l
  induction l generalizing j with
  | nil => simp [List.enumFrom]
  | cons a t ih =>
    intro h
    rw [List.enumFrom_cons] at h
    rcases List.mem_cons.mp h with h1 | h2
    · simp [h1]
    · exact List.mem_cons_of_mem _ (ih h2)

theorem snd_mem_of_mem_enum {α : Type} {p : Nat × α} {l : List α}
    (h : p ∈ l.enum) : p.2 ∈ l :=
  snd_mem_of_mem_enumFrom (by simpa [List.enum] using h)

theorem validateOperation_eq_of_type {op : BatchOperation} {t : String} {reqs : List String}
    (h : op.type = t) (ht : (t == "") = false)
    (hfind : requiredFieldsSchedule.find? (fun p => p.1 == t) = some (t, reqs)) :
    validateOperation op =
      match reqs.find? (fun f => !hasField op f) with
      | some f => (false, "Missing required field: " ++ f)
      | none => (true, "") := by
  unfold validateOperation
  rw [h, ht, hfind]
  simp

/-! ## C7: update of a header on a document with no header sections -/

/-- C7.  For every document payload containing no header sections,
`updateHeaderFooterContent(documentId, "header", content, "DEFAULT")` returns
`success=false` with the create-one-first message, and issues zero
`batchUpdate` calls. -/
theorem updateHeaderFooterContent_noHeader (doc : RawDoc) (content : String)
    (h : doc.headers = []) :
    updateHeaderFooterContent doc "header" content "DEFAULT" =
      ({ success := false
         message := "No header found in document. Please create a header first in Google Docs." },
       []) := by
  unfold updateHeaderFooterContent findTargetSection
  simp [h, targetPatterns]

/-- C7 witness: the empty document payload. -/
theorem updateHeaderFooterContent_noHeader_witness :
    updateHeaderFooterContent {} "header" "New Title" "DEFAULT" =
      ({ success := false
         message := "No header found in document. Please create a header first in Google Docs." },
       []) :=
  updateHeaderFooterContent_noHeader {} "New Title" rfl

/-! ## C8: parsing never throws / defaults -/

/-- C8 counterexample.  The claim quantifies over *any input value*, but
`parseDocumentStructure(null)` throws a `TypeError` at the `docData.title`
read (modelled: the `none` payload yields an error, not a structure). -/
theorem parseDocumentStructureJS_null_cex :
    (parseDocumentStructureJS none).isOk = false := rfl

/-- C8 (amended).  For every *non-null* payload object,
`parseDocumentStructure` returns a `DocumentStructure` without throwing, and
absent fields default to empty/zero: empty title, empty body and table lists,
`total_length` 0, empty header/footer maps. -/
theorem parseDocumentStructure_total_defaults :
    (∀ d : RawDoc, (parseDocumentStructureJS (some d)).isOk = true)
    ∧ parseDocumentStructure {} =
        { title := "", body := [], tables := [], headers := [], footers := [], total_length := 0 }
    ∧ (∀ d : RawDoc, d.body = none →
        (parseDocumentStructure d).body = [] ∧ (parseDocumentStructure d).total_length = 0)
    ∧ (∀ d : RawDoc, d.title = none → (parseDocumentStructure d).title = "")
    ∧ (∀ d : RawDoc, d.headers = [] → (parseDocumentStructure d).headers = [])
    ∧ (∀ d : RawDoc, d.footers = [] → (parseDocumentStructure d).footers = []) := by
  refine ⟨fun d => rfl, rfl, fun d hb => ?_, fun d ht => ?_, fun d hh => ?_, fun d hf => ?_⟩
  · unfold parseDocumentStructure
    simp [hb]
  · unfold parseDocumentStructure
    simp [ht]
  · unfold parseDocumentStructure
    simp [hh]
  · unfold parseDocumentStructure
    simp [hf]

/-- C8 witness: applying the amended theorem at the empty payload. -/
theorem parseDocumentStructure_total_defaults_witness :
    (parseDocumentStructureJS (some {})).isOk = true ∧
    (parseDocumentStructure { title := some "t" }).body = [] :=
  ⟨parseDocumentStructure_total_defaults.1 {},
   (parseDocumentStructure_total_defaults.2.2.1 { title := some "t" } rfl).1⟩

/-! ## C4: format_text field masks -/

/-- C4 counterexample.  A `format_text` operation supplying exactly one of
the five style fields — `fontFamily`, as the empty string — is *not* turned
into a one-field mask: JS truthiness drops it and request building fails with
"No formatting options provided".  Moreover a non-empty `fontFamily` is
masked as `weightedFontFamily`, not as the supplied field name `fontFamily`. -/
theorem formatText_mask_cex :
    buildOperationRequest c4opEmptyFamily "format_text" = .error "No formatting options provided"
    ∧ c4opEmptyFamily.fontFamily.isSome = true
    ∧ c4opEmptyFamily.bold = none ∧ c4opEmptyFamily.italic = none
    ∧ c4opEmptyFamily.underline = none ∧ c4opEmptyFamily.fontSize = none
    ∧ formatMask c4opArial = some "weightedFontFamily"
    ∧ "weightedFontFamily" ≠ "fontFamily" :=
  ⟨rfl, rfl, rfl, rfl, rfl, rfl, rfl, by decide⟩

/-- C4 (amended).  A `format_text` operation with `bold`, `italic`,
`underline`, `fontSize` all unset and `fontFamily` unset *or empty* fails
with the hard error "No formatting options provided"; with exactly one of
`bold`/`italic`/`underline`/`fontSize` supplied the emitted
`updateTextStyle` record's field mask is exactly that field, and with only a
*non-empty* `fontFamily` supplied it is exactly `weightedFontFamily`. -/
theorem formatText_mask_spec (op : BatchOperation) (h : op.type = "format_text") :
    (op.bold = none → op.italic = none → op.underline = none → op.fontSize = none →
      (op.fontFamily = none ∨ op.fontFamily = some "") →
      buildOperationRequest op op.type = .error "No formatting options provided")
    ∧ (∀ b, op.bold = some b → op.italic = none → op.underline = none → op.fontSize = none →
        (op.fontFamily = none ∨ op.fontFamily = some "") → formatMask op = some "bold")
    ∧ (∀ b, op.italic = some b → op.bold = none → op.underline = none → op.fontSize = none →
        (op.fontFamily = none ∨ op.fontFamily = some "") → formatMask op = some "italic")
    ∧ (∀ b, op.underline = some b → op.bold = none → op.italic = none → op.fontSize = none →
        (op.fontFamily = none ∨ op.fontFamily = some "") → formatMask op = some "underline")
    ∧ (∀ n, op.fontSize = some n → op.bold = none → op.italic = none → op.underline = none →
        (op.fontFamily = none ∨ op.fontFamily = some "") → formatMask op = some "fontSize")
    ∧ (∀ s, op.fontFamily = some s → s ≠ "" → op.bold = none → op.italic = none →
        op.underline = none → op.fontSize = none → formatMask op = some "weightedFontFamily") := by
  refine ⟨fun h1 h2 h3 h4 h5 => ?_,
          fun b h1 h2 h3 h4 h5 => ?_,
          fun b h1 h2 h3 h4 h5 => ?_,
          fun b h1 h2 h3 h4 h5 => ?_,
          fun n h1 h2 h3 h4 h5 => ?_,
          fun s h1 hs h2 h3 h4 h5 => ?_⟩
  · rw [h]
    rcases h5 with h5 | h5 <;>
      simp [buildOperationRequest, createFormatTextRequest, buildTextStyle, h1, h2, h3, h4, h5]
  · rcases h5 with h5 | h5 <;>
      simp [formatMask, buildOperationRequest, createFormatTextRequest, buildTextStyle,
        h1, h2, h3, h4, h5] <;> rfl
  · rcases h5 with h5 | h5 <;>
      simp [formatMask, buildOperationRequest, createFormatTextRequest, buildTextStyle,
        h1, h2, h3, h4, h5] <;> rfl
  · rcases h5 with h5 | h5 <;>
      simp [formatMask, buildOperationRequest, createFormatTextRequest, buildTextStyle,
        h1, h2, h3, h4, h5] <;> rfl
  · rcases h5 with h5 | h5 <;>
      simp [formatMask, buildOperationRequest, createFormatTextRequest, buildTextStyle,
        h1, h2, h3, h4, h5] <;> rfl
  · simp [formatMask, buildOperationRequest, createFormatTextRequest, buildTextStyle,
      h1, h2, h3, h4, h5, hs]
    rfl

/-- C4 witness: `bold: true` alone yields the mask `bold`. -/
theorem formatText_mask_spec_witness : formatMask c4op = some "bold" :=
  (formatText_mask_spec c4op rfl).2.1 true rfl rfl rfl rfl (Or.inl rfl)

/-! ## C2: replace_text expands to delete-range then insert-text -/

/-- C2.  Every `replace_text` operation accepted by validation expands to
exactly two records, in order: a delete-range over the operation's
`startIndex`/`endIndex` properties (the index fields the builder reads),
then an insert-text at `startIndex` carrying the operation's `text`; nothing
else is emitted for the operation. -/
theorem replaceText_two_records (op : BatchOperation) (h : op.type = "replace_text")
    (hv : (validateOperation op).1 = true) :
    exceptReqs (buildOperationRequest op op.type) =
      some [DocRequest.deleteContentRange op.startIndex op.endIndex,
            DocRequest.insertText op.startIndex op.text] := by
  have hchar := validateOperation_eq_of_type h (by decide) rfl
  rw [hchar] at hv
  cases hfind : (["start_index", "end_index", "text"].find? (fun f => !hasField op f)) with
  | some f =>
    rw [hfind] at hv
    simp at hv
  | none =>
    have htext : hasField op "text" = true := by
      have := List.find?_eq_none.mp hfind "text" (by decide)
      simpa using this
    have hsome : op.text.isSome := by simpa [hasField] using htext
    obtain ⟨t, ht⟩ := Option.isSome_iff_exists.mp hsome
    rw [h]
    simp [buildOperationRequest, exceptReqs, ht, createDeleteRangeRequest, createInsertTextRequest]

/-- C2 witness: a concrete validated replace_text operation. -/
theorem replaceText_two_records_witness :
    exceptReqs (buildOperationRequest c2op c2op.type) =
      some [DocRequest.deleteContentRange (some 5) (some 9),
            DocRequest.insertText (some 5) (some "hello")] :=
  replaceText_two_records c2op rfl rfl

/-! ## C10: snake_case validation vs camelCase request building -/

/-- C10.  Validation and request building read different field names: the
required-field schedule uses snake_case while the builder and the
`getSupportedOperations` documentation use camelCase.  Consequently a
`delete_text` operation carrying only the snake_case fields is accepted and
yields a `deleteContentRange` record with both bounds `undefined`, while an
operation carrying only the documented camelCase fields is rejected with a
"Missing required field" error and zero submitted records. -/
theorem snakeCamel_field_mismatch :
    requiredFieldsSchedule.find? (fun p => p.1 == "delete_text") =
      some ("delete_text", ["start_index", "end_index"])
    ∧ requiredFieldsSchedule.find? (fun p => p.1 == "replace_text") =
      some ("replace_text", ["start_index", "end_index", "text"])
    ∧ requiredFieldsSchedule.find? (fun p => p.1 == "find_replace") =
      some ("find_replace", ["find_text", "replace_text"])
    ∧ (getSupportedOperations.find? (fun p => p.1 == "delete_text")).map
        (fun p => p.2.required) = some ["startIndex", "endIndex"]
    ∧ (getSupportedOperations.find? (fun p => p.1 == "find_replace")).map
        (fun p => p.2.required) = some ["findText", "replaceText"]
    ∧ (∀ op : BatchOperation, op.type = "delete_text" →
        ((validateOperation op).1 = true ↔ op.start_index.isSome ∧ op.end_index.isSome))
    ∧ (∀ op : BatchOperation, op.type = "delete_text" →
        exceptReqs (buildOperationRequest op op.type) =
          some [DocRequest.deleteContentRange op.startIndex op.endIndex])
    ∧ (∀ op : BatchOperation, op.type = "find_replace" →
        exceptReqs (buildOperationRequest op op.type) =
          some [DocRequest.replaceAllText op.findText op.replaceText (op.matchCase.getD false)])
    ∧ (∀ (docId : String) (op : BatchOperation), op.type = "delete_text" →
        op.start_index.isSome = true → op.end_index.isSome = true →
        op.startIndex = none → op.endIndex = none →
        (executeBatchOperations docId [op]).1.success = true ∧
        (executeBatchOperations docId [op]).2 = [DocRequest.deleteContentRange none none])
    ∧ (∀ (docId : String) (op : BatchOperation), op.type = "delete_text" →
        op.startIndex.isSome = true → op.endIndex.isSome = true →
        (op.start_index = none ∨ op.end_index = none) →
        (executeBatchOperations docId [op]).1.success = false ∧
        strStartsWith (executeBatchOperations docId [op]).1.message
          "Batch operation failed: Error: Operation 1: Missing required field: " = true ∧
        (executeBatchOperations docId [op]).2 = []) := by
  refine ⟨rfl, rfl, rfl, rfl, rfl, fun op h => ?_, fun op h => ?_, fun op h => ?_,
          fun docId op h h1 h2 h3 h4 => ?_, fun docId op h h1 h2 h4 => ?_⟩
  · rw [validateOperation_eq_of_type h (by decide) rfl]
    cases os : op.start_index <;> cases oe : op.end_index <;>
      simp [List.find?_cons, hasField, os, oe]
  · rw [h]
    simp [buildOperationRequest, exceptReqs, createDeleteRangeRequest]
  · rw [h]
    simp [buildOperationRequest, exceptReqs, createFindReplaceRequest]
  · obtain ⟨sv, hsv⟩ := Option.isSome_iff_exists.mp h1
    obtain ⟨ev, hev⟩ := Option.isSome_iff_exists.mp h2
    constructor <;>
      simp [executeBatchOperations, validateAndBuildRequests, validateAndBuildRequestsGo,
        validateOperation, requiredFieldsSchedule, List.find?_cons, hasField,
        buildOperationRequest, createDeleteRangeRequest, h, hsv, hev, h3, h4]
  · rcases h4 with h4 | h4
    · refine ⟨?_, ?_, ?_⟩ <;>
        (simp [executeBatchOperations, validateAndBuildRequests, validateAndBuildRequestsGo,
          validateOperation, requiredFieldsSchedule, List.find?_cons, hasField, h, h4]
         try decide)
    · cases os : op.start_index with
      | none =>
        refine ⟨?_, ?_, ?_⟩ <;>
          (simp [executeBatchOperations, validateAndBuildRequests, validateAndBuildRequestsGo,
            validateOperation, requiredFieldsSchedule, List.find?_cons, hasField, h, h4, os]
           try decide)
      | some sv =>
        refine ⟨?_, ?_, ?_⟩ <;>
          (simp [executeBatchOperations, validateAndBuildRequests, validateAndBuildRequestsGo,
            validateOperation, requiredFieldsSchedule, List.find?_cons, hasField, h, h4, os]
           try decide)

/-- C10 witness: a snake_case-only `delete_text` is accepted and submits a
record with `undefined` bounds; a camelCase-only one is rejected. -/
theorem snakeCamel_field_mismatch_witness :
    ((executeBatchOperations "doc" [c10snake]).1.success = true ∧
      (executeBatchOperations "doc" [c10snake]).2 = [DocRequest.deleteContentRange none none])
    ∧ ((executeBatchOperations "doc" [c10camel]).1.success = false ∧
        strStartsWith (executeBatchOperations "doc" [c10camel]).1.message
          "Batch operation failed: Error: Operation 1: Missing required field: " = true ∧
        (executeBatchOperations "doc" [c10camel]).2 = []) :=
  ⟨(snakeCamel_field_mismatch.2.2.2.2.2.2.2.2.1 "doc" c10snake rfl rfl rfl rfl rfl),
   (snakeCamel_field_mismatch.2.2.2.2.2.2.2.2.2 "doc" c10camel rfl rfl rfl (Or.inl rfl))⟩

/-! ## C1: all-or-nothing batch validation -/

theorem str_append_assoc (a b c : String) : a ++ b ++ c = a ++ (b ++ c) := by
  apply String.ext
  simp [String.data_append]

theorem validateAndBuildRequestsGo_error (i : Nat) :
    ∀ (ops : List BatchOperation), ops.any opFails = true →
      ∃ rest, validateAndBuildRequestsGo i ops =
        .error ("Operation " ++
          toString (i + (ops.takeWhile (fun o => !opFails o)).length + 1) ++ rest) := by
  intro ops
  induction ops generalizing i with
  | nil => intro hk; simp at hk
  | cons op rest ih =>
    intro hk
    by_cases hf : opFails op = true
    · have htw : ((op :: rest).takeWhile (fun o => !opFails o)).length = 0 := by
        simp [List.takeWhile_cons, hf]
      rw [htw]
      unfold opFails at hf
      rw [Bool.or_eq_true] at hf
      by_cases hv : (validateOperation op).1 = true
      · have hb : (buildOperationRequest op op.type).isOk = false := by
          rcases hf with hf | hf
          · rw [hv] at hf; simp at hf
          · simpa using hf
        cases hbuild : buildOperationRequest op op.type with
        | ok p => rw [hbuild] at hb; simp [Except.isOk, Except.toBool] at hb
        | error e =>
          refine ⟨" (" ++ (op.type ++ (") failed: " ++ e)), ?_⟩
          simp only [validateAndBuildRequestsGo, hv, hbuild, Bool.not_true,
            Bool.false_eq_true, if_false]
          simp [str_append_assoc]
      · have hv0 : (validateOperation op).1 = false := by
          revert hv; cases (validateOperation op).1 <;> simp
        refine ⟨": " ++ (validateOperation op).2, ?_⟩
        simp only [validateAndBuildRequestsGo, hv0, Bool.not_false, if_true]
        simp [str_append_assoc]
    · have hfa : opFails op = false := by
        revert hf; cases opFails op <;> simp
      unfold opFails at hfa
      rw [Bool.or_eq_false_iff] at hfa
      have hv : (validateOperation op).1 = true := by
        have := hfa.1; revert this; cases (validateOperation op).1 <;> simp
      have hb : (buildOperationRequest op op.type).isOk = true := by
        have := hfa.2; revert this; cases (buildOperationRequest op op.type).isOk <;> simp
      have hrest : rest.any opFails = true := by
        rcases List.any_eq_true.mp hk with ⟨x, hx, hpx⟩
        rcases List.mem_cons.mp hx with rfl | hx2
        · exact absurd hpx hf
        · exact List.any_eq_true.mpr ⟨x, hx2, hpx⟩
      obtain ⟨r, hr⟩ := ih (i + 1) hrest
      have harith : i + 1 + (rest.takeWhile (fun o => !opFails o)).length + 1 =
          i + ((rest.takeWhile (fun o => !opFails o)).length + 1) + 1 := by omega
      rw [harith] at hr
      have htw : ((op :: rest).takeWhile (fun o => !opFails o)).length =
          (rest.takeWhile (fun o => !opFails o)).length + 1 := by
        simp [List.takeWhile_cons, hf]
      rw [htw]
      refine ⟨r, ?_⟩
      cases hbuild : buildOperationRequest op op.type with
      | error e => rw [hbuild] at hb; simp [Except.isOk, Except.toBool] at hb
      | ok p =>
        simp only [validateAndBuildRequestsGo, hv, hbuild, Bool.not_true,
          Bool.false_eq_true, if_false, hr]

/-- C1.  Batch validation is all-or-nothing: whenever at least one operation
fails validation or request-building, `executeBatchOperations` submits zero
mutation records, returns `success=false`, and its message names the 1-based
index of the first offending operation (the length of the maximal passing
prefix, plus one). -/
theorem executeBatchOperations_allOrNothing (docId : String) (ops : List BatchOperation)
    (h : ops.any opFails = true) :
    (executeBatchOperations docId ops).1.success = false
    ∧ (executeBatchOperations docId ops).2 = []
    ∧ strStartsWith (executeBatchOperations docId ops).1.message
        ("Batch operation failed: Error: Operation " ++
          toString ((ops.takeWhile (fun o => !opFails o)).length + 1)) = true := by
  obtain ⟨rest, hgo⟩ := validateAndBuildRequestsGo_error 0 ops h
  have hne : (ops.length == 0) = false := by
    cases ops
    · simp at h
    · simp
  have hres : executeBatchOperations docId ops =
      ({ success := false
         message := "Batch operation failed: Error: " ++
           ("Operation " ++
             toString ((ops.takeWhile (fun o => !opFails o)).length + 1) ++ rest)
         metadata := ⟨ops.length, 0, 0, []⟩ }, []) := by
    unfold executeBatchOperations validateAndBuildRequests
    rw [hne]
    simp only [Bool.false_eq_true, if_false]
    rw [hgo]
    simp
  rw [hres]
  refine ⟨rfl, rfl, ?_⟩
  have hlit : ("Batch operation failed: Error: Operation " ++
      toString ((ops.takeWhile (fun o => !opFails o)).length + 1)) =
      "Batch operation failed: Error: " ++
        ("Operation " ++ toString ((ops.takeWhile (fun o => !opFails o)).length + 1)) := by
    rw [← str_append_assoc]
    rfl
  rw [hlit]
  rw [str_append_assoc "Operation " _ rest]
  rw [← str_append_assoc "Batch operation failed: Error: " _ _]
  rw [← str_append_assoc]
  exact strStartsWith_append_self _ _

/-- C1 witness: a 3-operation batch whose operation 2 fails building. -/
theorem executeBatchOperations_allOrNothing_witness :
    (executeBatchOperations "doc" c1ops).1.success = false
    ∧ (executeBatchOperations "doc" c1ops).2 = []
    ∧ strStartsWith (executeBatchOperations "doc" c1ops).1.message
        ("Batch operation failed: Error: Operation " ++
          toString ((c1ops.takeWhile (fun o => !opFails o)).length + 1)) = true :=
  executeBatchOperations_allOrNothing "doc" c1ops (by decide)

/-! ## C5: table cell insertion indices -/

theorem findSome?_eq_head?_filterMap {α β : Type} (f : α → Option β) (l : List α) :
    l.findSome? f = (l.filterMap f).head? := by
  induction l with
  | nil => rfl
  | cons a t ih =>
    rw [List.findSome?_cons, List.filterMap_cons]
    cases hfa : f a with
    | none => exact ih
    | some b => simp

theorem enumFrom_map_eq {α β : Type} (g : Nat × α → β) (f : α → β)
    (hg : ∀ i a, g (i, a) = f a) :
    ∀ (j : Nat) (l : List α), (l.enumFrom j).map g = l.map f := by
  intro j l
  induction l generalizing j with
  | nil => rfl
  | cons a t ih => simp [List.enumFrom_cons, hg, ih]

theorem enum_map_eq {α β : Type} (g : Nat × α → β) (f : α → β)
    (hg : ∀ i a, g (i, a) = f a) (l : List α) : l.enum.map g = l.map f := by
  rw [List.enum]
  exact enumFrom_map_eq g f hg 0 l

/-- C5 counterexample.  In `c5cellA` the cell's first paragraph contains no
text run at all, so the claim predicts `insertion_index = start_index + 1 =
11`; the code instead keeps scanning and returns 42, the start of the *second*
paragraph's run.  In `c5cellB` the first paragraph's first element is not a
text run: the first text run starts at 8, but the code takes the first
element's index 7. -/
theorem parseTableCells_insertion_cex :
    ((parseTableCells c5tableA).map (fun r => r.map (fun c => c.insertion_index)) = [[42]])
    ∧ (c5cellA.content.head?.bind (fun e => e.paragraph) = some { elements := [] })
    ∧ (c5cellA.startIndex.getD 0 + 1 = 11)
    ∧ ((42 : Int) ≠ 11)
    ∧ ((parseTableCells c5tableB).map (fun r => r.map (fun c => c.insertion_index)) = [[7]])
    ∧ (((c5cellB.content.head?.bind (fun e => e.paragraph)).map (fun p =>
          (p.elements.filter (fun pe => pe.textRun.isSome)).head?.bind
            (fun pe => pe.startIndex))) = some (some 8))
    ∧ ((7 : Int) ≠ 8) :=
  ⟨rfl, rfl, rfl, by decide, rfl, rfl, by decide⟩

/-- C5 (amended).  For every parsed table cell, `insertion_index` equals the
first hit of scanning the cell's content elements in order for a paragraph
with a non-empty element list whose *first element* carries a start index —
that element need not be a text run and the paragraph need not be the cell's
first; when no element qualifies, it equals `cell.start_index + 1`. -/
theorem parseTableCells_insertion :
    (∀ table : RawTable,
      (parseTableCells table).map (fun r => r.map (fun c => c.insertion_index)) =
        table.tableRows.map (fun row => row.tableCells.map cellInsertionIndex))
    ∧ (∀ cell : RawTableCell,
        cellInsertionIndex cell =
          (cell.content.filterMap qualifyingStart).headD (cell.startIndex.getD 0 + 1))
    ∧ (∀ cell : RawTableCell, cell.content.filterMap qualifyingStart = [] →
        cellInsertionIndex cell = cell.startIndex.getD 0 + 1)
    ∧ (∀ (cell : RawTableCell) (e : RawInnerElem) (x : Int),
        cell.content.head? = some e → qualifyingStart e = some x →
        cellInsertionIndex cell = x) := by
  refine ⟨fun table => ?_, fun cell => ?_, fun cell h => ?_, fun cell e x he hq => ?_⟩
  · simp only [parseTableCells, List.map_map]
    refine enum_map_eq _ _ (fun i row => ?_) _
    simp only [Function.comp, List.map_map]
    exact enum_map_eq _ _ (fun k cell => rfl) _
  · rw [cellInsertionIndex, cellFirstParaElemStart, findSome?_eq_head?_filterMap]
    cases hfm : cell.content.filterMap qualifyingStart <;> simp [hfm]
  · rw [cellInsertionIndex, cellFirstParaElemStart, findSome?_eq_head?_filterMap, h]
    rfl
  · cases hc : cell.content with
    | nil => rw [hc] at he; simp at he
    | cons a t =>
      rw [hc] at he
      simp only [List.head?_cons, Option.some.injEq] at he
      subst he
      rw [cellInsertionIndex, cellFirstParaElemStart, hc]
      simp [List.findSome?_cons, hq]

/-- C5 witness: a contentless cell gets `start_index + 1`. -/
theorem parseTableCells_insertion_witness : cellInsertionIndex c5cellEmpty = 5 :=
  parseTableCells_insertion.2.2.1 c5cellEmpty rfl

/-! ## C9: getNextParagraphIndex -/

theorem find?_and_filter {α : Type} (p q : α → Bool) (l : List α) :
    l.find? (fun a => p a && q a) = (l.filter p).find? q := by
  rw [List.find?_filter]
  congr 1
  funext a
  cases p a <;> cases q a <;> simp

theorem sorted_find?_gt (after : Int) :
    ∀ (l : List Int), l.Pairwise (· ≤ ·) →
      (match l.find? (fun s => after < s) with
       | some m => m ∈ l ∧ after < m ∧ ∀ s ∈ l, after < s → m ≤ s
       | none => ∀ s ∈ l, s ≤ after) := by
  intro l
  induction l with
  | nil => intro _; simp [List.find?]
  | cons a t ih =>
    intro hp
    rw [List.pairwise_cons] at hp
    rw [List.find?_cons]
    by_cases ha : after < a
    · rw [show (decide (after < a)) = true by simpa using ha]
      refine ⟨List.mem_cons_self a t, ha, fun s hs _ => ?_⟩
      rcases List.mem_cons.mp hs with rfl | hs2
      · exact le_refl s
      · exact hp.1 s hs2
    · rw [show (decide (after < a)) = false by simpa using ha]
      have := ih hp.2
      cases hfind : t.find? (fun s => after < s) with
      | some m =>
        rw [hfind] at this
        refine ⟨List.mem_cons_of_mem a this.1, this.2.1, fun s hs hlt => ?_⟩
        rcases List.mem_cons.mp hs with rfl | hs2
        · exact absurd hlt ha
        · exact this.2.2 s hs2 hlt
      | none =>
        rw [hfind] at this
        intro s hs
        rcases List.mem_cons.mp hs with rfl | hs2
        · exact le_of_not_lt ha
        · exact this s hs2

theorem pStarts_find?_eq (after : Int) (body : List DocumentElement) :
    ((body.filter (fun e => e.type == "paragraph")).map (fun e => e.start_index)).find?
        (fun s => decide (after < s)) =
      (body.find? (fun e => e.type == "paragraph" && decide (after < e.start_index))).map
        (fun e => e.start_index) := by
  induction body with
  | nil => rfl
  | cons a t ih =>
    rw [List.filter_cons, List.find?_cons]
    cases hp : (a.type == "paragraph") with
    | false =>
      rw [if_neg Bool.false_ne_true, Bool.false_and]
      exact ih
    | true =>
      rw [if_pos rfl, List.map_cons, List.find?_cons, Bool.true_and]
      cases hq : decide (after < a.start_index) with
      | false => exact ih
      | true => rfl

theorem getNextParagraphIndex_eq_find (d : RawDoc) (after : Int) :
    getNextParagraphIndex d after =
      match (pStarts d).find? (fun s => after < s) with
      | some m => m
      | none => max ((parseDocumentStructure d).total_length - 1) 1 := by
  show (match (parseDocumentStructure d).body.find?
      (fun e => e.type == "paragraph" && decide (after < e.start_index)) with
    | some element => element.start_index
    | none => max ((parseDocumentStructure d).total_length - 1) 1) = _
  unfold pStarts
  rw [pStarts_find?_eq after (parseDocumentStructure d).body]
  cases hf : (parseDocumentStructure d).body.find?
      (fun e => e.type == "paragraph" && decide (after < e.start_index)) <;> simp [hf]

/-- C9 counterexample.  With two paragraphs in body order at starts 10 then 5
and `afterIndex = 0`, the function returns 10 — the *first* paragraph start
greater than 0 in body order — although the smallest such start is 5. -/
theorem getNextParagraphIndex_cex :
    getNextParagraphIndex c9unsorted 0 = 10
    ∧ ((parseDocumentStructure c9unsorted).body.any
        (fun e => e.type == "paragraph" && e.start_index == 5)) = true
    ∧ (0 : Int) < 5 ∧ (5 : Int) < 10 := by
  refine ⟨rfl, rfl, by decide, by decide⟩

/-- C9 (amended).  `getNextParagraphIndex` returns the start of the *first
paragraph in body order* whose start exceeds `afterIndex`; when the body's
paragraph starts are nondecreasing this is the smallest such start, and when
no paragraph starts after `afterIndex` it returns
`max(total_length - 1, 1)`. -/
theorem getNextParagraphIndex_spec (d : RawDoc) (after : Int)
    (hsorted : (pStarts d).Pairwise (· ≤ ·)) :
    (∀ s ∈ pStarts d, after < s → getNextParagraphIndex d after ≤ s)
    ∧ ((∃ s ∈ pStarts d, after < s) →
        getNextParagraphIndex d after ∈ pStarts d ∧ after < getNextParagraphIndex d after)
    ∧ ((∀ s ∈ pStarts d, s ≤ after) →
        getNextParagraphIndex d after = max ((parseDocumentStructure d).total_length - 1) 1) := by
  have hconn := getNextParagraphIndex_eq_find d after
  have hmin := sorted_find?_gt after (pStarts d) hsorted
  cases hfind : (pStarts d).find? (fun s => after < s) with
  | some m =>
    rw [hfind] at hconn hmin
    refine ⟨fun s hs hlt => ?_, fun _ => ?_, fun hall => ?_⟩
    · rw [hconn]; exact hmin.2.2 s hs hlt
    · rw [hconn]; exact ⟨hmin.1, hmin.2.1⟩
    · exact absurd hmin.2.1 (not_lt.mpr (hall m hmin.1))
  | none =>
    rw [hfind] at hconn hmin
    refine ⟨fun s hs hlt => absurd hlt (not_lt.mpr (hmin s hs)), fun hex => ?_, fun _ => hconn⟩
    obtain ⟨s, hs, hlt⟩ := hex
    exact absurd hlt (not_lt.mpr (hmin s hs))

/-- C9 witness: a document with ascending paragraph starts 2, 5. -/
theorem getNextParagraphIndex_spec_witness : getNextParagraphIndex c9sorted 0 ≤ 5 :=
  (getNextParagraphIndex_spec c9sorted 0 (by decide)).1 5 (by decide) (by decide)

/-! ## C6: best-effort cell population -/

theorem populateRowCells_countP (env : CellEnv) (b : Bool) (r : Nat) :
    ∀ (row : List String) (j : Nat),
      populateRowCells env b r j row =
        ((row.enumFrom j).filterMap
            (fun cp => if cp.2 == "" then none else some (r, cp.1, cp.2))).countP
          (cellWriteOk env b) := by
  intro row
  induction row with
  | nil => intro j; rfl
  | cons c rest ih =>
    intro j
    rw [List.enumFrom_cons, List.filterMap_cons]
    by_cases hc : (c == "") = true
    · simp [populateRowCells, hc, ih (j + 1)]
    · have hc0 : (c == "") = false := by revert hc; cases (c == "") <;> simp
      simp [populateRowCells, hc0, List.countP_cons, ih (j + 1), cellWriteOk, Nat.add_comm]

theorem populateTableCellsGo_countP (env : CellEnv) (b : Bool) :
    ∀ (td : List (List String)) (i : Nat),
      populateTableCellsGo env b i td =
        ((td.enumFrom i).flatMap (fun rp =>
            rp.2.enum.filterMap
              (fun cp => if cp.2 == "" then none else some (rp.1, cp.1, cp.2)))).countP
          (cellWriteOk env b) := by
  intro td
  induction td with
  | nil => intro i; rfl
  | cons row rest ih =>
    intro i
    rw [List.enumFrom_cons, List.flatMap_cons, List.countP_append]
    unfold populateTableCellsGo
    rw [ih (i + 1), populateRowCells_countP env b i row 0]
    rfl

/-- The population count equals the number of non-empty cells (in row-major
order) whose single-cell write succeeds: no failure stops the loop. -/
theorem populateTableCells_countP (env : CellEnv) (tableData : List (List String))
    (boldHeaders : Bool) :
    populateTableCells env tableData boldHeaders =
      (nonEmptyCells tableData).countP (cellWriteOk env boldHeaders) := by
  unfold populateTableCells nonEmptyCells
  rw [populateTableCellsGo_countP env boldHeaders tableData 0]
  rfl

/-- C6.  Cell population is best-effort: with valid table data and the table
found after creation, `createAndPopulateTable` returns success, the per-cell
loop visits every non-empty cell in row-major order regardless of earlier
failures, and `metadata.populated_cells` counts exactly the cells whose write
succeeded. -/
theorem createAndPopulateTable_bestEffort (env : CellEnv) (freshDoc : RawDoc)
    (tableData : List (List String)) (index : Int) (boldHeaders : Bool)
    (hvalid : (validateTableData (tableData.map (fun r => r.map JsCell.str))).1 = true)
    (hfound : tomFindTables freshDoc ≠ []) :
    (createAndPopulateTable env freshDoc tableData index boldHeaders).success = true
    ∧ (createAndPopulateTable env freshDoc tableData index boldHeaders).metadata =
        some { rows := tableData.length
               columns := (tableData.headD []).length
               populated_cells := (nonEmptyCells tableData).countP (cellWriteOk env boldHeaders)
               table_index := (tomFindTables freshDoc).length - 1 }
    ∧ populateTableCells env tableData boldHeaders =
        (nonEmptyCells tableData).countP (cellWriteOk env boldHeaders) := by
  have hlen : ((tomFindTables freshDoc).length == 0) = false := by
    cases hft : tomFindTables freshDoc
    · exact absurd hft hfound
    · simp
  refine ⟨?_, ?_, populateTableCells_countP env tableData boldHeaders⟩ <;>
    simp [createAndPopulateTable, hvalid, hlen, populateTableCells_countP]

/-- C6 witness: a 2×2 table whose (1,0) write throws still succeeds with
`populated_cells = 3`. -/
theorem createAndPopulateTable_bestEffort_witness :
    (createAndPopulateTable c6env c6doc c6data 10 true).success = true
    ∧ (createAndPopulateTable c6env c6doc c6data 10 true).metadata =
        some { rows := 2, columns := 2, populated_cells := 3, table_index := 0 } := by
  have h := createAndPopulateTable_bestEffort c6env c6doc c6data 10 true (by decide) (by decide)
  refine ⟨h.1, ?_⟩
  rw [h.2.1]
  rfl

/-! ## C3: table data validation -/

theorem exists_mem_enumFrom {α : Type} {a : α} :
    ∀ (l : List α) (j : Nat), a ∈ l → ∃ i, (i, a) ∈ l.enumFrom j := by
  intro l
  induction l with
  | nil => intro j h; simp at h
  | cons x t ih =>
    intro j h
    rcases List.mem_cons.mp h with rfl | h2
    · exact ⟨j, by rw [List.enumFrom_cons]; exact List.mem_cons_self _ _⟩
    · obtain ⟨i, hi⟩ := ih (j + 1) h2
      exact ⟨i, by rw [List.enumFrom_cons]; exact List.mem_cons_of_mem _ hi⟩

theorem dedup_const : ∀ (l : List Nat) (c : Nat), l ≠ [] → (∀ x ∈ l, x = c) →
    l.dedup = [c] := by
  intro l
  induction l with
  | nil => intro c h _; exact absurd rfl h
  | cons a t ih =>
    intro c _ hall
    have ha : a = c := hall a (List.mem_cons_self a t)
    subst ha
    by_cases ht : t = []
    · subst ht; simp
    · have hdt : t.dedup = [a] := ih a ht (fun x hx => hall x (List.mem_cons_of_mem _ hx))
      have hmem : a ∈ t := by
        rw [← List.mem_dedup, hdt]
        exact List.mem_cons_self _ _
      rw [List.dedup_cons_of_mem hmem, hdt]

theorem one_lt_length_of_two_mem {α : Type} {l : List α} {a b : α}
    (ha : a ∈ l) (hb : b ∈ l) (hab : a ≠ b) : 1 < l.length := by
  cases l with
  | nil => simp at ha
  | cons x t =>
    cases t with
    | nil =>
      simp at ha hb
      exact absurd (ha.trans hb.symm) hab
    | cons y u => simp only [List.length_cons]; omega

theorem one_lt_dedup_length {l : List Nat} {a b : Nat}
    (ha : a ∈ l) (hb : b ∈ l) (hab : a ≠ b) : 1 < l.dedup.length :=
  one_lt_length_of_two_mem (List.mem_dedup.mpr ha) (List.mem_dedup.mpr hb) hab

theorem all_eq_of_dedup_length_le_one {l : List Nat} (h : l.dedup.length ≤ 1) :
    ∀ a ∈ l, ∀ b ∈ l, a = b := by
  intro a ha b hb
  by_contra hab
  exact absurd (one_lt_dedup_length ha hb hab) (not_lt.mpr h)

theorem firstBadCell_eq_none_iff {td : List (List JsCell)} :
    firstBadCell td = none ↔ ∀ r ∈ td, ∀ c ∈ r, c.isStr = true := by
  unfold firstBadCell firstBadCellInRow
  rw [List.findSome?_eq_none_iff]
  constructor
  · intro h r hr c hc
    obtain ⟨i, hi⟩ := exists_mem_enumFrom td 0 hr
    have h1 := h (i, r) (by rw [List.enum]; exact hi)
    rw [Option.map_eq_none'] at h1
    rw [List.find?_eq_none] at h1
    obtain ⟨k, hk⟩ := exists_mem_enumFrom r 0 hc
    have h2 := h1 (k, c) (by rw [List.enum]; exact hk)
    simpa using h2
  · intro h p hp
    rw [Option.map_eq_none', List.find?_eq_none]
    intro q hq
    simp [h p.2 (snd_mem_of_mem_enum hp) q.2 (snd_mem_of_mem_enum hq)]

theorem firstBadCell_isStr {td : List (List JsCell)} {i j : Nat} {c : JsCell}
    (h : firstBadCell td = some (i, j, c)) : c.isStr = false := by
  unfold firstBadCell at h
  obtain ⟨p, _, hfp⟩ := List.exists_of_findSome?_eq_some h
  rw [Option.map_eq_some'] at hfp
  obtain ⟨q, hq, hqe⟩ := hfp
  unfold firstBadCellInRow at hq
  have hpq := List.find?_some hq
  have hc : q.2 = c := by
    have := congrArg (fun t : Nat × Nat × JsCell => t.2.2) hqe
    simpa using this
  rw [hc] at hpq
  simpa using hpq

theorem badCellMsg_names {i j : Nat} {c : JsCell} (h : c.isStr = false) :
    tableMsgNamesConstraint (badCellMsg i j c) = true := by
  have key : strStartsWith (badCellMsg i j c) "Cell (" = true := by
    cases c with
    | str s => simp [JsCell.isStr] at h
    | nullv =>
      unfold badCellMsg
      repeat apply strStartsWith_append
      exact strStartsWith_refl _
    | undef =>
      unfold badCellMsg
      repeat apply strStartsWith_append
      exact strStartsWith_refl _
    | other t r =>
      unfold badCellMsg
      repeat apply strStartsWith_append
      exact strStartsWith_refl _
  unfold tableMsgNamesConstraint
  simp [key]

theorem length_beq_zero_eq_false {α : Type} {l : List α} (h : l ≠ []) :
    (l.length == 0) = false := by
  cases l with
  | nil => exact absurd rfl h
  | cons a t => simp

theorem validate_empty_branch {td : List (List JsCell)} (hne : td ≠ [])
    (hemp : emptyRowIndices td ≠ []) :
    validateTableData td =
      (false, "Rows cannot be empty. Empty rows found at indices: " ++
        joinNats (emptyRowIndices td)) := by
  have hpos : 0 < (emptyRowIndices td).length := List.length_pos.mpr hemp
  simp [validateTableData, length_beq_zero_eq_false hne, hpos]

theorem validate_ragged_branch {td : List (List JsCell)} (hne : td ≠ [])
    (hemp : emptyRowIndices td = []) (hr : 1 < (td.map List.length).dedup.length) :
    validateTableData td =
      (false, "All rows must have the same number of columns. Found column counts: " ++
        joinNats (td.map List.length)) := by
  simp [validateTableData, length_beq_zero_eq_false hne, hemp, hr]

theorem validate_rows_branch {td : List (List JsCell)} (hne : td ≠ [])
    (hemp : emptyRowIndices td = []) (hnr : ¬ 1 < (td.map List.length).dedup.length)
    (h1000 : 1000 < td.length) :
    validateTableData td =
      (false, "Too many rows (" ++ toString td.length ++ "). Maximum allowed: 1000") := by
  simp [validateTableData, length_beq_zero_eq_false hne, hemp, hnr, h1000]

theorem validate_cols_branch {td : List (List JsCell)} (hne : td ≠ [])
    (hemp : emptyRowIndices td = []) (hnr : ¬ 1 < (td.map List.length).dedup.length)
    (hle : ¬ 1000 < td.length) (h20 : 20 < (td.map List.length).headD 0) :
    validateTableData td =
      (false, "Too many columns (" ++ toString ((td.map List.length).headD 0) ++
        "). Maximum allowed: 20") := by
  have h20a : 20 < (Option.map List.length td.head?).getD 0 := by simpa using h20
  simp [validateTableData, length_beq_zero_eq_false hne, hemp, hnr, hle, h20a]

theorem validate_cell_branch {td : List (List JsCell)} {i j : Nat} {c : JsCell}
    (hne : td ≠ []) (hemp : emptyRowIndices td = [])
    (hnr : ¬ 1 < (td.map List.length).dedup.length) (hle : ¬ 1000 < td.length)
    (hc20 : ¬ 20 < (td.map List.length).headD 0) (hfb : firstBadCell td = some (i, j, c)) :
    validateTableData td = (false, badCellMsg i j c) := by
  have hc20a : ¬ 20 < (Option.map List.length td.head?).getD 0 := by simpa using hc20
  simp [validateTableData, length_beq_zero_eq_false hne, hemp, hnr, hle, hc20a, hfb]

theorem emptyRowIndices_eq_nil {td : List (List JsCell)} (h : ∀ r ∈ td, r.length ≠ 0) :
    emptyRowIndices td = [] := by
  unfold emptyRowIndices
  have hf : (td.enum.filter (fun p => p.2.length == 0)) = [] := by
    rw [List.filter_eq_nil_iff]
    intro p hp
    simp [h p.2 (snd_mem_of_mem_enum hp)]
  rw [hf]
  rfl

theorem validate_valid {td : List (List JsCell)} {c : Nat} (hne : td ≠ [])
    (hrows : td.length ≤ 1000) (hc1 : 1 ≤ c) (hc20 : c ≤ 20)
    (hrect : ∀ r ∈ td, r.length = c)
    (hstr : ∀ r ∈ td, ∀ cl ∈ r, cl.isStr = true) :
    (validateTableData td).1 = true := by
  have hemp : emptyRowIndices td = [] :=
    emptyRowIndices_eq_nil (fun r hr => by rw [hrect r hr]; omega)
  have hdd : (td.map List.length).dedup = [c] := by
    refine dedup_const _ c (by simpa using hne) ?_
    intro x hx
    obtain ⟨r, hr, rfl⟩ := List.mem_map.mp hx
    exact hrect r hr
  have hnr : ¬ 1 < (td.map List.length).dedup.length := by rw [hdd]; simp
  have hle : ¬ 1000 < td.length := not_lt.mpr hrows
  have hhead : (td.map List.length).headD 0 = c := by
    cases td with
    | nil => exact absurd rfl hne
    | cons r t => simp [hrect r (List.mem_cons_self r t)]
  have hc20a : ¬ 20 < (Option.map List.length td.head?).getD 0 := by
    have : ¬ 20 < (td.map List.length).headD 0 := by rw [hhead]; omega
    simpa using this
  have hfb : firstBadCell td = none := firstBadCell_eq_none_iff.mpr hstr
  simp [validateTableData, length_beq_zero_eq_false hne, hemp, hnr, hle, hc20a, hfb]

/-- C3.  `validateTableData` accepts exactly the well-formed matrices:
every rectangular all-string matrix within the 1000×20 ceiling validates;
every ragged matrix, every matrix holding a null/undefined cell, and every
matrix exceeding a ceiling is rejected with a message that names a violated
constraint. -/
theorem validateTableData_spec :
    (∀ (td : List (List JsCell)) (c : Nat), td ≠ [] → td.length ≤ 1000 →
      1 ≤ c → c ≤ 20 → (∀ r ∈ td, r.length = c) →
      (∀ r ∈ td, ∀ cl ∈ r, cl.isStr = true) →
      (validateTableData td).1 = true)
    ∧ (∀ td : List (List JsCell), (∃ r ∈ td, ∃ q ∈ td, r.length ≠ q.length) →
        (validateTableData td).1 = false ∧
        tableMsgNamesConstraint (validateTableData td).2 = true)
    ∧ (∀ td : List (List JsCell),
        (∃ r ∈ td, ∃ cl ∈ r, cl = JsCell.nullv ∨ cl = JsCell.undef) →
        (validateTableData td).1 = false ∧
        tableMsgNamesConstraint (validateTableData td).2 = true)
    ∧ (∀ td : List (List JsCell), (td.length > 1000 ∨ ∃ r ∈ td, r.length > 20) →
        (validateTableData td).1 = false ∧
        tableMsgNamesConstraint (validateTableData td).2 = true) := by
  refine ⟨fun td c hne hrows hc1 hc20 hrect hstr =>
            validate_valid hne hrows hc1 hc20 hrect hstr,
          fun td hrag => ?_, fun td hnull => ?_, fun td hbig => ?_⟩
  · obtain ⟨r, hr, q, hq, hneq⟩ := hrag
    have hne : td ≠ [] := List.ne_nil_of_mem hr
    by_cases hemp : emptyRowIndices td = []
    · have h1 : 1 < (td.map List.length).dedup.length :=
        one_lt_dedup_length (List.mem_map_of_mem _ hr) (List.mem_map_of_mem _ hq) hneq
      rw [validate_ragged_branch hne hemp h1]
      exact ⟨rfl, tableMsgNamesConstraint_append (by decide) _⟩
    · rw [validate_empty_branch hne hemp]
      exact ⟨rfl, tableMsgNamesConstraint_append (by decide) _⟩
  · obtain ⟨r, hr, cl, hcl, hnd⟩ := hnull
    have hne : td ≠ [] := List.ne_nil_of_mem hr
    by_cases hemp : emptyRowIndices td = []
    · by_cases hnr : 1 < (td.map List.length).dedup.length
      · rw [validate_ragged_branch hne hemp hnr]
        exact ⟨rfl, tableMsgNamesConstraint_append (by decide) _⟩
      · by_cases h1000 : 1000 < td.length
        · rw [validate_rows_branch hne hemp hnr h1000]
          exact ⟨rfl, tableMsgNamesConstraint_append
            (tableMsgNamesConstraint_append (by decide) _) _⟩
        · by_cases h20 : 20 < (td.map List.length).headD 0
          · rw [validate_cols_branch hne hemp hnr h1000 h20]
            exact ⟨rfl, tableMsgNamesConstraint_append
              (tableMsgNamesConstraint_append (by decide) _) _⟩
          · have hfbne : firstBadCell td ≠ none := by
              intro hnone
              have h1 := firstBadCell_eq_none_iff.mp hnone r hr cl hcl
              rcases hnd with rfl | rfl <;> simp [JsCell.isStr] at h1
            cases hfb : firstBadCell td with
            | none => exact absurd hfb hfbne
            | some trip =>
              obtain ⟨i, j, cc⟩ := trip
              rw [validate_cell_branch hne hemp hnr h1000 h20 hfb]
              exact ⟨rfl, badCellMsg_names (firstBadCell_isStr hfb)⟩
    · rw [validate_empty_branch hne hemp]
      exact ⟨rfl, tableMsgNamesConstraint_append (by decide) _⟩
  · rcases hbig with h1000 | ⟨r, hr, h20r⟩
    · have hne : td ≠ [] := by
        intro h
        rw [h] at h1000
        simp at h1000
      by_cases hemp : emptyRowIndices td = []
      · by_cases hnr : 1 < (td.map List.length).dedup.length
        · rw [validate_ragged_branch hne hemp hnr]
          exact ⟨rfl, tableMsgNamesConstraint_append (by decide) _⟩
        · rw [validate_rows_branch hne hemp hnr h1000]
          exact ⟨rfl, tableMsgNamesConstraint_append
            (tableMsgNamesConstraint_append (by decide) _) _⟩
      · rw [validate_empty_branch hne hemp]
        exact ⟨rfl, tableMsgNamesConstraint_append (by decide) _⟩
    · have hne : td ≠ [] := List.ne_nil_of_mem hr
      by_cases hemp : emptyRowIndices td = []
      · by_cases hnr : 1 < (td.map List.length).dedup.length
        · rw [validate_ragged_branch hne hemp hnr]
          exact ⟨rfl, tableMsgNamesConstraint_append (by decide) _⟩
        · have hall := all_eq_of_dedup_length_le_one (not_lt.mp hnr)
          have hhead : (td.map List.length).headD 0 = r.length := by
            cases td with
            | nil => exact absurd rfl hne
            | cons r0 t0 =>
              have h0 : r0.length = r.length :=
                hall _ (List.mem_map_of_mem _ (List.mem_cons_self r0 t0))
                  _ (List.mem_map_of_mem _ hr)
              simp [h0]
          have h20 : 20 < (td.map List.length).headD 0 := by rw [hhead]; exact h20r
          by_cases h1000 : 1000 < td.length
          · rw [validate_rows_branch hne hemp hnr h1000]
            exact ⟨rfl, tableMsgNamesConstraint_append
              (tableMsgNamesConstraint_append (by decide) _) _⟩
          · rw [validate_cols_branch hne hemp hnr h1000 h20]
            exact ⟨rfl, tableMsgNamesConstraint_append
              (tableMsgNamesConstraint_append (by decide) _) _⟩
      · rw [validate_empty_branch hne hemp]
        exact ⟨rfl, tableMsgNamesConstraint_append (by decide) _⟩

/-- C3 witness: a valid 1×2 matrix, a ragged matrix, and a matrix with a null
cell. -/
theorem validateTableData_spec_witness :
    (validateTableData [[JsCell.str "a", JsCell.str "b"]]).1 = true
    ∧ (validateTableData [[JsCell.str "a"], []]).1 = false
    ∧ (validateTableData [[JsCell.nullv]]).1 = false :=
  ⟨validateTableData_spec.1 [[JsCell.str "a", JsCell.str "b"]] 2 (by decide) (by decide)
      (by decide) (by decide) (by decide) (by decide),
   (validateTableData_spec.2.1 [[JsCell.str "a"], []] (by decide)).1,
   (validateTableData_spec.2.2.1 [[JsCell.nullv]] (by decide)).1⟩

end GDocs

